import Mathlib

/-!
Verification development for the "Who'd they play for?" quiz app
(`src/Whod_they_play_for.py`, plus the earlier variant `src/unnamed/part_000`).

The shallow embedding below translates the level-evaluation logic, the
session-state step system, the difficulty/threshold tables and the
data-access helpers into Lean, and proves the spec's testable properties
about them.
-/

namespace Whod

/-! ## Level evaluation (`render_level`, lines 246-320)

A user selection and a level's answer set are Python lists of strings; the
comparison at lines 247-291 works on `len` and on `set(...)` conversions.
We model Python lists as `List String` and `set(...)` as `List.toFinset`.
-/

/-- Outcome of the answer check at lines 247-291 of `render_level`:
either the correct branch, or the incorrect branch which reports the set of
wrong teams (line 279: `set(selection) - set(level_answers)`) and the number
of correct teams (line 283: `set(selection) & set(level_answers)`). -/
inductive EvalResult where
  | correct : EvalResult
  | incorrect (wrongTeams : Finset String) (numCorrect : Nat) : EvalResult
deriving DecidableEq

/-- Lines 247-291 of `render_level`: the evaluation only happens when
`len(st.session_state[selection_key]) == len(level_answers)` (line 247);
inside, equality of the two Python sets decides correct vs incorrect. -/
def evaluate_selection (selection level_answers : List String) :
    Option EvalResult :=
  if selection.length = level_answers.length then
    if selection.toFinset = level_answers.toFinset then
      some .correct
    else
      some (.incorrect (selection.toFinset \ level_answers.toFinset)
        ((selection.toFinset ∩ level_answers.toFinset).card))
  else
    none

/-- The boolean that `render_level` returns: `True` (line 274) only when the
evaluation ran and was correct; `False` at line 320 when the evaluation did
not trigger.  (In the incorrect branch the script reruns after resetting, so
the level is not passed either.) -/
def render_level_passed (selection level_answers : List String) : Bool :=
  match evaluate_selection selection level_answers with
  | some .correct => true
  | _ => false

/-- C1: when evaluation triggers (equal sizes), the outcome is Correct iff
the selection set equals the answer set; every non-equal same-size selection
is Incorrect, reporting wrong-set = selection minus answers and
correct-count = |selection ∩ answers|. -/
theorem evaluate_selection_correct_iff
    (selection level_answers : List String)
    (hlen : selection.length = level_answers.length) :
    (evaluate_selection selection level_answers = some .correct ↔
      selection.toFinset = level_answers.toFinset) ∧
    (selection.toFinset ≠ level_answers.toFinset →
      evaluate_selection selection level_answers =
        some (.incorrect (selection.toFinset \ level_answers.toFinset)
          ((selection.toFinset ∩ level_answers.toFinset).card))) := by
  constructor
  · constructor
    · intro h
      by_contra hne
      simp only [evaluate_selection, hlen, if_pos rfl, if_neg hne] at h
      exact (EvalResult.noConfusion (Option.some.inj h))
    · intro heq
      simp [evaluate_selection, hlen, heq]
  · intro hne
    simp [evaluate_selection, hlen, hne]

/-- Witness for C1 at a concrete same-size wrong selection. -/
theorem evaluate_selection_correct_iff_witness :
    (evaluate_selection ["X", "Z"] ["X", "Y"] = some .correct ↔
      (["X", "Z"] : List String).toFinset = (["X", "Y"] : List String).toFinset) ∧
    ((["X", "Z"] : List String).toFinset ≠ (["X", "Y"] : List String).toFinset →
      evaluate_selection ["X", "Z"] ["X", "Y"] =
        some (.incorrect
          ((["X", "Z"] : List String).toFinset \ (["X", "Y"] : List String).toFinset)
          (((["X", "Z"] : List String).toFinset ∩ (["X", "Y"] : List String).toFinset).card))) :=
  evaluate_selection_correct_iff ["X", "Z"] ["X", "Y"] (by decide)

/-- C2: evaluation triggers iff the stored selection's size equals the answer
set's size, and a strictly smaller selection never triggers it — whatever its
content — with `render_level` returning `False` (line 320). -/
theorem evaluate_triggers_iff_full_size
    (selection level_answers : List String)
    (hlt : selection.length < level_answers.length) :
    (∀ sel ans : List String,
      (evaluate_selection sel ans).isSome ↔ sel.length = ans.length) ∧
    evaluate_selection selection level_answers = none ∧
    render_level_passed selection level_answers = false := by
  refine ⟨fun sel ans => ?_, ?_, ?_⟩
  · constructor
    · intro h
      by_contra hne
      simp [evaluate_selection, hne] at h
    · intro h
      by_cases heq : sel.toFinset = ans.toFinset <;>
        simp [evaluate_selection, h, heq]
  · simp [evaluate_selection, Nat.ne_of_lt hlt]
  · simp [render_level_passed, evaluate_selection, Nat.ne_of_lt hlt]

/-- Witness for C2: a one-team selection against a two-team answer set. -/
theorem evaluate_triggers_iff_full_size_witness :
    (∀ sel ans : List String,
      (evaluate_selection sel ans).isSome ↔ sel.length = ans.length) ∧
    evaluate_selection ["X"] ["X", "Y"] = none ∧
    render_level_passed ["X"] ["X", "Y"] = false :=
  evaluate_triggers_iff_full_size ["X"] ["X", "Y"] (by decide)

/-! ## Session state

`st.session_state` holds, per level `lvl ∈ 1..10`, the keys
`level_{lvl}_player`, `level_{lvl}_selection` and `multiselect_level_{lvl}`,
plus the run-wide keys `remaining_reveals`, `previous_difficulty` and
`current_difficulty`.  Levels are indexed here by `Fin 10`, level `lvl`
sitting at index `lvl - 1` (so level 1 is index `0`).  An absent key is
`none`.  `remaining_reveals` is a Python `int`, modelled as `Int`; it is `0`
before lines 451-455 of `create_streamlit_app` first set it. -/
structure SessionState where
  players : Fin 10 → Option String
  selections : Fin 10 → Option (List String)
  multiselects : Fin 10 → Option (List String)
  remaining_reveals : Int
  previous_difficulty : Option String
  current_difficulty : Option String

/-- The session state at session start: no keys present. -/
def empty_state : SessionState :=
  ⟨fun _ => none, fun _ => none, fun _ => none, 0, none, none⟩

/-- `random.choice(l)`: the random draw is modelled by an arbitrary index
`i`, reduced modulo the length; on an empty list the call raises
(`IndexError`), modelled as `none`. -/
def randomChoice {α : Type} (l : List α) (i : Nat) : Option α :=
  l.get? (i % l.length)

/-- The strings among `st.session_state.values()`: the assigned players and
the difficulty strings.  (The selection lists, widget lists and the reveal
counter are not strings, so `p not in st.session_state.values()` at line 170
can only match these.) -/
def state_strings (s : SessionState) : List String :=
  (List.finRange 10).filterMap s.players ++
    s.previous_difficulty.toList ++ s.current_difficulty.toList

/-! ## Difficulty tables (`create_streamlit_app`, lines 429-448 and 480-482) -/

/-- The `game_difficulty` dictionary (lines 430-435): starting minimum
seasons per difficulty; a missing key is a `KeyError`, modelled as `none`. -/
def game_difficulty (d : String) : Option Int :=
  if d = "Select a difficulty level" then some 0
  else if d = "Easy" then some 17
  else if d = "Normal" then some 14
  else if d = "Hard" then some 10
  else none

/-- The `reveals_per_difficulty` dictionary (lines 444-448). -/
def reveals_per_difficulty (d : String) : Option Int :=
  if d = "Easy" then some 3
  else if d = "Normal" then some 2
  else if d = "Hard" then some 1
  else none

/-- `reveals_per_difficulty.get(difficulty_selection, 0)` (line 454). -/
def reveals_per_difficulty_get (d : String) : Int :=
  (reveals_per_difficulty d).getD 0

/-- Line 482: `min_seasons = game_difficulty[difficulty_selection] + 1 - level`. -/
def min_seasons (start : Int) (level : Int) : Int :=
  start + 1 - level

/-! ## Session-state operations

Each operation mirrors one block of the script that mutates
`st.session_state`.  The nondeterminism of `random.choice` is a `Nat`
index argument; the database contents reached through `load_players` /
`load_players_data` appear as list arguments. -/

/-- Lines 164-190 of `render_level`: if no player is stored for the level,
filter the `load_players(min_seasons)` pool against every value already in
session state (line 170) and draw one at random (line 190).  An already
assigned player is sticky (line 188).  Drawing from an empty filtered pool
raises, modelled as `none`. -/
def assign_player (k : Fin 10) (pool : List String) (i : Nat)
    (s : SessionState) : Option SessionState :=
  match s.players k with
  | some _ => some s
  | none =>
    match randomChoice (pool.filter (fun p => decide (p ∉ state_strings s))) i with
    | some p => some { s with players := Function.update s.players k (some p) }
    | none => none

/-- Lines 193-194: initialise the level's selection to `[]` if absent. -/
def init_selection (k : Fin 10) (s : SessionState) : SessionState :=
  match s.selections k with
  | some _ => s
  | none => { s with selections := Function.update s.selections k (some []) }

/-- Line 226: the multiselect widget replaces the level's whole selection. -/
def set_selection (k : Fin 10) (sel : List String) (s : SessionState) :
    SessionState :=
  { s with
    selections := Function.update s.selections k (some sel),
    multiselects := Function.update s.multiselects k (some sel) }

/-- Lines 232-244 of `render_level`: if `remaining_reveals > 0`, append one
random element of `level_answers` to the level's selection (line 237, plain
`append`, no deduplication) and decrement the counter by 1 (line 240);
otherwise the button is not rendered and nothing changes.  `random.choice`
on an empty answer list raises, modelled as `none`. -/
def reveal_team (k : Fin 10) (level_answers : List String) (i : Nat)
    (s : SessionState) : Option SessionState :=
  if 0 < s.remaining_reveals then
    match randomChoice level_answers i with
    | some t =>
      some { s with
        selections := Function.update s.selections k
          (some ((s.selections k).getD [] ++ [t])),
        remaining_reveals := s.remaining_reveals - 1 }
    | none => none
  else
    some s

/-- Lines 298-315 of `render_level` (the incorrect-answer reset): every
level's selection and multiselect key is deleted, level 1 gets a fresh
player drawn from the full `load_players(starting_min_seasons)` pool — no
exclusion filtering — and every other level's player key is deleted.
`remaining_reveals` is not touched. -/
def reset_run (pool : List String) (i : Nat) (s : SessionState) :
    Option SessionState :=
  match randomChoice pool i with
  | some p =>
    some { s with
      players := fun k => if k = 0 then some p else none,
      selections := fun _ => none,
      multiselects := fun _ => none }
  | none => none

/-- Lines 450-455 of `create_streamlit_app`: set `remaining_reveals` from
the difficulty table (default 0) and record the difficulty. -/
def init_reveals (d : String) (s : SessionState) : SessionState :=
  { s with
    remaining_reveals := reveals_per_difficulty_get d,
    previous_difficulty := some d }

/-- Lines 464-477: on a difficulty change, pop every level's player,
selection and multiselect key and record the new difficulty. -/
def change_difficulty (d : String) (s : SessionState) : SessionState :=
  { s with
    players := fun _ => none,
    selections := fun _ => none,
    multiselects := fun _ => none,
    current_difficulty := some d }

/-! ## The step system

One `Step` is one session-state mutation the script can perform; the
`play_again` button (lines 266-272) deletes every key. -/
inductive Step : SessionState → SessionState → Prop
  | initReveals (d : String) (s : SessionState) : Step s (init_reveals d s)
  | changeDifficulty (d : String) (s : SessionState) :
      Step s (change_difficulty d s)
  | assign (k : Fin 10) (pool : List String) (i : Nat) (s s' : SessionState) :
      assign_player k pool i s = some s' → Step s s'
  | selectInit (k : Fin 10) (s : SessionState) : Step s (init_selection k s)
  | select (k : Fin 10) (sel : List String) (s : SessionState) :
      Step s (set_selection k sel s)
  | reveal (k : Fin 10) (ans : List String) (i : Nat) (s s' : SessionState) :
      reveal_team k ans i s = some s' → Step s s'
  | resetWrong (pool : List String) (i : Nat) (s s' : SessionState) :
      reset_run pool i s = some s' → Step s s'
  | playAgain (s : SessionState) : Step s empty_state

/-- The session states reachable from a fresh session. -/
inductive Reachable : SessionState → Prop
  | init : Reachable empty_state
  | step (s s' : SessionState) : Reachable s → Step s s' → Reachable s'

/-! ## Basic lemmas about the operations -/

theorem randomChoice_mem {α : Type} {l : List α} {i : Nat} {a : α}
    (h : randomChoice l i = some a) : a ∈ l :=
  List.get?_mem h

theorem randomChoice_eq_none {α : Type} (l : List α) (i : Nat) :
    randomChoice l i = none ↔ l = [] := by
  constructor
  · intro h
    by_contra hne
    have hlt : i % l.length < l.length :=
      Nat.mod_lt _ (List.length_pos.mpr hne)
    rw [randomChoice, List.get?_eq_get hlt] at h
    cases h
  · intro h
    subst h
    rfl

theorem randomChoice_of_ne_nil {α : Type} (l : List α) (i : Nat)
    (h : l ≠ []) :
    ∃ a, randomChoice l i = some a ∧ a ∈ l := by
  have hlt : i % l.length < l.length := Nat.mod_lt _ (List.length_pos.mpr h)
  exact ⟨l.get ⟨i % l.length, hlt⟩, by rw [randomChoice, List.get?_eq_get hlt],
    List.get_mem _ _ _⟩

theorem player_mem_state_strings {s : SessionState} {j : Fin 10} {p : String}
    (h : s.players j = some p) : p ∈ state_strings s := by
  unfold state_strings
  exact List.mem_append.mpr (Or.inl (List.mem_append.mpr (Or.inl
    (List.mem_filterMap.mpr ⟨j, List.mem_finRange j, h⟩))))

theorem init_selection_players (k : Fin 10) (s : SessionState) :
    (init_selection k s).players = s.players := by
  unfold init_selection
  cases s.selections k <;> rfl

theorem init_selection_reveals (k : Fin 10) (s : SessionState) :
    (init_selection k s).remaining_reveals = s.remaining_reveals := by
  unfold init_selection
  cases s.selections k <;> rfl

theorem assign_player_reveals {k : Fin 10} {pool : List String} {i : Nat}
    {s s' : SessionState} (h : assign_player k pool i s = some s') :
    s'.remaining_reveals = s.remaining_reveals := by
  unfold assign_player at h
  split at h
  · exact (Option.some.inj h) ▸ rfl
  · split at h
    · exact (Option.some.inj h) ▸ rfl
    · cases h

theorem reveal_team_players {k : Fin 10} {ans : List String} {i : Nat}
    {s s' : SessionState} (h : reveal_team k ans i s = some s') :
    s'.players = s.players := by
  unfold reveal_team at h
  split at h
  · split at h
    · exact (Option.some.inj h) ▸ rfl
    · cases h
  · exact (Option.some.inj h) ▸ rfl

theorem reset_run_players {pool : List String} {i : Nat}
    {s s' : SessionState} (h : reset_run pool i s = some s') :
    ∃ p, randomChoice pool i = some p ∧
      s'.players = fun k => if k = 0 then some p else none := by
  unfold reset_run at h
  split at h
  · next p hp => exact ⟨p, hp, (Option.some.inj h) ▸ rfl⟩
  · cases h

theorem reset_run_reveals {pool : List String} {i : Nat}
    {s s' : SessionState} (h : reset_run pool i s = some s') :
    s'.remaining_reveals = s.remaining_reveals := by
  unfold reset_run at h
  split at h
  · exact (Option.some.inj h) ▸ rfl
  · cases h

/-! ## Invariants -/

/-- The uniqueness invariant: no player is assigned to two levels at once. -/
def players_injective (s : SessionState) : Prop :=
  ∀ j k : Fin 10, j ≠ k → ∀ p, s.players j = some p → s.players k ≠ some p

theorem players_injective_of_players_eq {s s' : SessionState}
    (h : s'.players = s.players) (hs : players_injective s) :
    players_injective s' := by
  intro j k hjk p hj
  rw [h] at hj ⊢
  exact hs j k hjk p hj

theorem players_injective_step {s s' : SessionState}
    (hs : players_injective s) (hstep : Step s s') : players_injective s' := by
  cases hstep with
  | initReveals d s => exact hs
  | changeDifficulty d s =>
    intro j k hjk p hp
    exact absurd hp (by simp [change_difficulty])
  | assign k pool i s s' h =>
    unfold assign_player at h
    split at h
    · exact (Option.some.inj h) ▸ hs
    · next hpk =>
      split at h
      · next p hrc =>
        have hmem := randomChoice_mem hrc
        have hnotin : p ∉ state_strings s := by
          have := (List.mem_filter.mp hmem).2
          simpa using this
        have hfresh : ∀ j : Fin 10, s.players j ≠ some p := fun j hj =>
          hnotin (player_mem_state_strings hj)
        have hplayers : s'.players = Function.update s.players k (some p) :=
          (Option.some.inj h) ▸ rfl
        intro j j' hjj' q hj hj'
        rw [hplayers, Function.update_apply] at hj hj'
        by_cases hjk : j = k
        · rw [if_pos hjk] at hj
          have hq : q = p := (Option.some.inj hj).symm
          subst hq
          have hj'k : ¬ j' = k := fun hc => hjj' (hjk.trans hc.symm)
          rw [if_neg hj'k] at hj'
          exact hfresh j' hj'
        · rw [if_neg hjk] at hj
          by_cases hj'k : j' = k
          · rw [if_pos hj'k] at hj'
            have hq : p = q := Option.some.inj hj'
            exact hfresh j (hq ▸ hj)
          · rw [if_neg hj'k] at hj'
            exact hs j j' hjj' q hj hj'
      · cases h
  | selectInit k s =>
    exact players_injective_of_players_eq (init_selection_players k s) hs
  | select k sel s => exact hs
  | reveal k ans i s s' h =>
    exact players_injective_of_players_eq (reveal_team_players h) hs
  | resetWrong pool i s s' h =>
    obtain ⟨p, _, hplayers⟩ := reset_run_players h
    intro j j' hjj' q hj hj'
    have hjq : (if j = (0 : Fin 10) then some p else none) = some q := by
      rw [hplayers] at hj
      exact hj
    have hj'q : (if j' = (0 : Fin 10) then some p else none) = some q := by
      rw [hplayers] at hj'
      exact hj'
    by_cases hj0 : j = 0
    · by_cases hj'0 : j' = 0
      · exact hjj' (hj0.trans hj'0.symm)
      · rw [if_neg hj'0] at hj'q
        cases hj'q
    · rw [if_neg hj0] at hjq
      cases hjq
  | playAgain s =>
    intro j k hjk p hp
    exact absurd hp (by simp [empty_state])

theorem reveals_per_difficulty_get_nonneg (d : String) :
    0 ≤ reveals_per_difficulty_get d := by
  unfold reveals_per_difficulty_get reveals_per_difficulty
  split_ifs <;> simp

theorem remaining_reveals_nonneg {s : SessionState} (h : Reachable s) :
    0 ≤ s.remaining_reveals := by
  induction h with
  | init => simp [empty_state]
  | step s s' hr hstep ih =>
    cases hstep with
    | initReveals d s => exact reveals_per_difficulty_get_nonneg d
    | changeDifficulty d s => exact ih
    | assign k pool i s s' h => rw [assign_player_reveals h]; exact ih
    | selectInit k s => rw [init_selection_reveals k s]; exact ih
    | select k sel s => exact ih
    | reveal k ans i s s' h =>
      unfold reveal_team at h
      split at h
      · next hpos =>
        split at h
        · have : s'.remaining_reveals = s.remaining_reveals - 1 :=
            (Option.some.inj h) ▸ rfl
          rw [this]
          omega
        · cases h
      · have hss : s = s' := Option.some.inj h
        exact hss ▸ ih
    | resetWrong pool i s s' h => rw [reset_run_reveals h]; exact ih
    | playAgain s => simp [empty_state]

/-! ## Concrete reachable states used as witnesses -/

/-- The state after level 1 draws the player `"A"` from a one-player pool. -/
def s_demo : SessionState :=
  { empty_state with
    players := Function.update empty_state.players 0 (some "A") }

theorem s_demo_assign : assign_player 0 ["A"] 0 empty_state = some s_demo :=
  rfl

theorem reachable_s_demo : Reachable s_demo :=
  Reachable.step _ _ Reachable.init
    (Step.assign 0 ["A"] 0 empty_state s_demo s_demo_assign)

/-- The state right after selecting the Hard difficulty: 1 reveal left. -/
def rev_demo : SessionState := init_reveals "Hard" empty_state

theorem reachable_rev_demo : Reachable rev_demo :=
  Reachable.step _ _ Reachable.init (Step.initReveals "Hard" empty_state)

/-- Hard difficulty, level-1 selection currently `["X"]`. -/
def dup_demo : SessionState :=
  set_selection 0 ["X"] (init_selection 0 rev_demo)

theorem reachable_dup_demo : Reachable dup_demo :=
  Reachable.step _ _
    (Reachable.step _ _ reachable_rev_demo (Step.selectInit 0 rev_demo))
    (Step.select 0 ["X"] (init_selection 0 rev_demo))

/-! ## Theorems for the claims about session-state operations -/

/-- C3: the incorrect-answer reset clears every level's stored selection
(and widget state), draws the new level-1 player from the full pool at the
starting threshold with no exclusion filtering, deletes every other level's
player so it is re-drawn if reached again, and leaves the reveal budget
(and the difficulty keys) unchanged. -/
theorem reset_run_clears_and_redraws (s : SessionState) (pool : List String)
    (i : Nat) (hpool : pool ≠ []) :
    ∃ p s', randomChoice pool i = some p ∧ p ∈ pool ∧
      reset_run pool i s = some s' ∧
      (∀ k, s'.selections k = none) ∧
      (∀ k, s'.multiselects k = none) ∧
      s'.players 0 = some p ∧
      (∀ k : Fin 10, k ≠ 0 → s'.players k = none) ∧
      s'.remaining_reveals = s.remaining_reveals ∧
      s'.previous_difficulty = s.previous_difficulty ∧
      s'.current_difficulty = s.current_difficulty := by
  obtain ⟨p, hrc, hmem⟩ := randomChoice_of_ne_nil pool i hpool
  refine ⟨p, { s with
      players := fun k => if k = 0 then some p else none,
      selections := fun _ => none,
      multiselects := fun _ => none }, hrc, hmem, ?_,
    fun k => rfl, fun k => rfl, ?_, ?_, rfl, rfl, rfl⟩
  · unfold reset_run
    rw [hrc]
  · simp
  · intro k hk
    simp [hk]

/-- Witness for C3: resetting from `s_demo` with the one-player pool `["A"]`
redraws `"A"` for level 1 even though `"A"` is currently assigned — the
reset draw does no exclusion filtering. -/
theorem reset_run_clears_and_redraws_witness :
    ∃ p s', randomChoice ["A"] 0 = some p ∧ p ∈ ["A"] ∧
      reset_run ["A"] 0 s_demo = some s' ∧
      (∀ k, s'.selections k = none) ∧
      (∀ k, s'.multiselects k = none) ∧
      s'.players 0 = some p ∧
      (∀ k : Fin 10, k ≠ 0 → s'.players k = none) ∧
      s'.remaining_reveals = s_demo.remaining_reveals ∧
      s'.previous_difficulty = s_demo.previous_difficulty ∧
      s'.current_difficulty = s_demo.current_difficulty :=
  reset_run_clears_and_redraws s_demo ["A"] 0 (by decide)

/-- C4: in every reachable session state the level-to-player assignment is
injective — a player assigned to one level is never simultaneously assigned
to another level of the same run. -/
theorem assigned_players_unique (s : SessionState) (hreach : Reachable s) :
    players_injective s := by
  induction hreach with
  | init =>
    intro j k hjk p hp
    exact absurd hp (by simp [empty_state])
  | step s s' hr hstep ih => exact players_injective_step ih hstep

/-- Witness for C4: with `"A"` assigned to level 1 in the reachable state
`s_demo`, level 2 cannot also hold `"A"`. -/
theorem assigned_players_unique_witness : s_demo.players 1 ≠ some "A" :=
  assigned_players_unique s_demo reachable_s_demo 0 1 (by decide) "A" rfl

/-- C5: with a positive budget a reveal appends exactly one random member of
the answer set to the stored selection (no deduplication) and decrements the
shared counter by exactly 1; with budget 0 it is a no-op; and on every
reachable state the budget is non-negative. -/
theorem reveal_team_spec (s : SessionState) (k : Fin 10) (ans : List String)
    (i : Nat) (t : String) (hreach : Reachable s)
    (ht : randomChoice ans i = some t) :
    0 ≤ s.remaining_reveals ∧
    (0 < s.remaining_reveals →
      t ∈ ans ∧
      reveal_team k ans i s = some { s with
        selections := Function.update s.selections k
          (some ((s.selections k).getD [] ++ [t])),
        remaining_reveals := s.remaining_reveals - 1 }) ∧
    (s.remaining_reveals = 0 → reveal_team k ans i s = some s) := by
  refine ⟨remaining_reveals_nonneg hreach,
    fun hpos => ⟨randomChoice_mem ht, ?_⟩, fun hz => ?_⟩
  · unfold reveal_team
    rw [if_pos hpos, ht]
  · unfold reveal_team
    rw [if_neg (by omega)]

/-- Witness for C5 at the reachable Hard-difficulty state (budget 1). -/
theorem reveal_team_spec_witness :
    0 ≤ rev_demo.remaining_reveals ∧
    (0 < rev_demo.remaining_reveals →
      "X" ∈ ["X", "Y"] ∧
      reveal_team 0 ["X", "Y"] 0 rev_demo = some { rev_demo with
        selections := Function.update rev_demo.selections 0
          (some ((rev_demo.selections 0).getD [] ++ ["X"])),
        remaining_reveals := rev_demo.remaining_reveals - 1 }) ∧
    (rev_demo.remaining_reveals = 0 →
      reveal_team 0 ["X", "Y"] 0 rev_demo = some rev_demo) :=
  reveal_team_spec rev_demo 0 ["X", "Y"] 0 "X" reachable_rev_demo rfl

/-- Counterexample for C6: on Easy (start 17) the level-10 threshold is
`17 + 1 - 10 = 8`, which is `start - 9`, not the claimed `start - 8 = 9`. -/
theorem level10_threshold_counterexample :
    game_difficulty "Easy" = some 17 ∧ min_seasons 17 10 = 8 ∧
      (8 : Int) ≠ 17 - 8 := by
  refine ⟨rfl, rfl, by norm_num⟩

/-- C6 (amended): the difficulty table pairs Easy with start 17 and budget
3, Normal with 14 and 2, Hard with 10 and 1, and for each level `k ∈ 1..10`
the threshold is `start + 1 - k`, decreasing by exactly 1 per level from
`start` at level 1 down to `start - 9` at level 10. -/
theorem difficulty_thresholds (d : String) (start k : Int)
    (hd : d = "Easy" ∨ d = "Normal" ∨ d = "Hard")
    (hstart : game_difficulty d = some start)
    (hk1 : 1 ≤ k) (hk10 : k ≤ 10) :
    ((d = "Easy" → start = 17 ∧ reveals_per_difficulty d = some 3) ∧
     (d = "Normal" → start = 14 ∧ reveals_per_difficulty d = some 2) ∧
     (d = "Hard" → start = 10 ∧ reveals_per_difficulty d = some 1)) ∧
    min_seasons start k = start + 1 - k ∧
    min_seasons start 1 = start ∧
    min_seasons start 10 = start - 9 ∧
    min_seasons start (k + 1) = min_seasons start k - 1 := by
  rcases hd with h | h | h <;> subst h <;>
    refine ⟨⟨fun hd2 => ?_, fun hd2 => ?_, fun hd2 => ?_⟩, rfl,
      by unfold min_seasons; ring, by unfold min_seasons; ring,
      by unfold min_seasons; ring⟩ <;>
    first
      | exact ⟨(Option.some.inj hstart).symm, rfl⟩
      | exact absurd hd2 (by decide)

/-- Witness for C6 at Easy difficulty and level 1. -/
theorem difficulty_thresholds_witness :
    (((("Easy" : String) = "Easy") →
        (17 : Int) = 17 ∧ reveals_per_difficulty "Easy" = some 3) ∧
     ((("Easy" : String) = "Normal") →
        (17 : Int) = 14 ∧ reveals_per_difficulty "Easy" = some 2) ∧
     ((("Easy" : String) = "Hard") →
        (17 : Int) = 10 ∧ reveals_per_difficulty "Easy" = some 1)) ∧
    min_seasons 17 1 = 17 + 1 - 1 ∧
    min_seasons 17 1 = 17 ∧
    min_seasons 17 10 = 17 - 9 ∧
    min_seasons 17 (1 + 1) = min_seasons 17 1 - 1 :=
  difficulty_thresholds "Easy" 17 1 (Or.inl rfl) rfl (by norm_num) (by norm_num)

/-- C8: the per-level draw is partial — it returns `none` exactly when the
pool filtered against the session-state values is empty, and that failure is
reached for concrete database contents: an empty eligibility pool, or a
one-player pool whose only player is already assigned. -/
theorem draw_can_fail_on_empty_pool (pool : List String) (i : Nat)
    (s : SessionState) :
    (randomChoice (pool.filter (fun p => decide (p ∉ state_strings s))) i = none ↔
      pool.filter (fun p => decide (p ∉ state_strings s)) = []) ∧
    assign_player 0 [] 0 empty_state = none ∧
    assign_player 1 ["A"] 0 s_demo = none :=
  ⟨randomChoice_eq_none _ _, rfl, rfl⟩

/-- C9: from the reachable state `dup_demo` (selection `["X"]`, answers
`["X", "Y"]`, one reveal left) a reveal of `"X"` produces the duplicated
selection `["X", "X"]`: it has the answer set's size, every entry is a
correct club, yet evaluation yields Incorrect with an empty wrong-set. -/
theorem reveal_duplicate_gives_incorrect_empty_wrong_set :
    Reachable dup_demo ∧
    dup_demo.selections 0 = some ["X"] ∧
    (reveal_team 0 ["X", "Y"] 0 dup_demo).map (fun st => st.selections 0) =
      some (some ["X", "X"]) ∧
    ¬ (["X", "X"] : List String).Nodup ∧
    (["X", "X"] : List String).length = (["X", "Y"] : List String).length ∧
    (∀ c ∈ (["X", "X"] : List String), c ∈ (["X", "Y"] : List String)) ∧
    (["X", "X"] : List String).toFinset ⊂ (["X", "Y"] : List String).toFinset ∧
    evaluate_selection ["X", "X"] ["X", "Y"] = some (.incorrect ∅ 1) :=
  ⟨reachable_dup_demo, rfl, rfl, by decide, by decide, by decide, by decide,
    by decide⟩

/-! ## Data access: `load_players_data` (lines 93-123)

The SQL query returns the distinct `(team_name, number_of_seasons)` rows for
the player; `teams` is the sorted `team_name` column (line 118), and the
season count is `df["number_of_seasons"].mode().iat[0]` (line 121).
pandas `Series.mode()` returns the values of maximal frequency in ascending
sorted order, and `.iat[0]` takes entry 0 of that sorted series. -/

/-- The values of the column having maximal frequency (the statistical
modes), before pandas sorts them. -/
def column_modes (l : List Int) : List Int :=
  l.dedup.filter (fun x => l.all (fun y => decide (l.count y ≤ l.count x)))

/-- `df["number_of_seasons"].mode()`: the modes in ascending sorted order. -/
def pandas_series_mode (l : List Int) : List Int :=
  List.insertionSort (· ≤ ·) (column_modes l)

/-- `.mode().iat[0]`: entry 0 of the sorted mode series; `none` when the
column is empty (pandas would raise an out-of-bounds error there). -/
def mode_iat0 (l : List Int) : Option Int :=
  (pandas_series_mode l).head?

/-- `load_players_data` (lines 93-123), taking the distinct
`(team_name, number_of_seasons)` rows of the SQL result as input: the
sorted team column and the mode-based season count. -/
def load_players_data (rows : List (String × Int)) :
    List String × Option Int :=
  (List.insertionSort (· ≤ ·) (rows.map Prod.fst),
    mode_iat0 (rows.map Prod.snd))

/-- The tie-break policy the spec describes, stated from the spec's words
for comparison with the code's pandas behaviour: the first value in the
rows' positional order whose frequency is maximal. -/
def first_mode_in_row_order (l : List Int) : Option Int :=
  l.find? (fun x => l.all (fun y => decide (l.count y ≤ l.count x)))

theorem exists_count_max {α : Type} (f : α → Nat) (l : List α)
    (h : l ≠ []) : ∃ x ∈ l, ∀ y ∈ l, f y ≤ f x := by
  induction l with
  | nil => exact absurd rfl h
  | cons a t ih =>
    cases t with
    | nil =>
      refine ⟨a, List.mem_singleton_self a, ?_⟩
      intro y hy
      rw [List.mem_singleton] at hy
      subst hy
      exact le_refl _
    | cons b u =>
      obtain ⟨x, hx, hmax⟩ := ih (by simp)
      by_cases hax : f x ≤ f a
      · refine ⟨a, List.mem_cons_self a _, ?_⟩
        intro y hy
        rcases List.mem_cons.mp hy with h1 | h2
        · subst h1
          exact le_refl _
        · exact le_trans (hmax y h2) hax
      · refine ⟨x, List.mem_cons_of_mem a hx, ?_⟩
        intro y hy
        rcases List.mem_cons.mp hy with h1 | h2
        · subst h1
          exact le_of_not_le hax
        · exact hmax y h2

theorem mem_column_modes {l : List Int} {x : Int} :
    x ∈ column_modes l ↔ x ∈ l ∧ ∀ y ∈ l, l.count y ≤ l.count x := by
  unfold column_modes
  rw [List.mem_filter, List.mem_dedup]
  constructor
  · rintro ⟨hx, hall⟩
    refine ⟨hx, fun y hy => ?_⟩
    simpa using List.all_eq_true.mp hall y hy
  · rintro ⟨hx, hall⟩
    refine ⟨hx, List.all_eq_true.mpr fun y hy => ?_⟩
    simpa using hall y hy

theorem column_modes_ne_nil {l : List Int} (h : l ≠ []) :
    column_modes l ≠ [] := by
  obtain ⟨x, hx, hmax⟩ := exists_count_max (fun y => l.count y) l h
  exact List.ne_nil_of_mem (mem_column_modes.mpr ⟨hx, hmax⟩)

/-- Helper: `mode_iat0` returns the least among the most-frequent values. -/
theorem mode_iat0_least (l : List Int) (h : l ≠ []) :
    ∃ m, mode_iat0 l = some m ∧ m ∈ l ∧
      (∀ y ∈ l, l.count y ≤ l.count m) ∧
      (∀ y ∈ l, (∀ z ∈ l, l.count z ≤ l.count y) → m ≤ y) := by
  have hperm : (pandas_series_mode l).Perm (column_modes l) :=
    List.perm_insertionSort _ _
  have hsorted : List.Sorted (· ≤ ·) (pandas_series_mode l) :=
    List.sorted_insertionSort _ _
  cases hps : pandas_series_mode l with
  | nil =>
    exact absurd (List.Perm.eq_nil (hps ▸ hperm).symm)
      (column_modes_ne_nil h)
  | cons m tail =>
    have hmem_m : m ∈ column_modes l :=
      (hperm.mem_iff).mp (hps ▸ List.mem_cons_self m tail)
    obtain ⟨hm_l, hm_max⟩ := mem_column_modes.mp hmem_m
    refine ⟨m, ?_, hm_l, hm_max, ?_⟩
    · unfold mode_iat0
      rw [hps]
      rfl
    · intro y hy hymax
      have hy_sorted : y ∈ pandas_series_mode l :=
        (hperm.mem_iff).mpr (mem_column_modes.mpr ⟨hy, hymax⟩)
      rw [hps] at hy_sorted hsorted
      rcases List.mem_cons.mp hy_sorted with h1 | h2
      · exact le_of_eq h1.symm
      · exact (List.sorted_cons.mp hsorted).1 y h2

/-- Counterexample for C7: on the tied rows
`[("A", 5), ("B", 3), ("C", 3), ("D", 5)]` the code returns the smallest
tied value 3 (pandas sorts the modes), not the first mode encountered in
positional row order, which is 5. -/
theorem mode_tie_break_counterexample :
    (load_players_data [("A", 5), ("B", 3), ("C", 3), ("D", 5)]).2 = some 3 ∧
    first_mode_in_row_order [5, 3, 3, 5] = some 5 ∧
    (load_players_data [("A", 5), ("B", 3), ("C", 3), ("D", 5)]).2 ≠
      first_mode_in_row_order [5, 3, 3, 5] := by
  refine ⟨by decide, by decide, by decide⟩

/-- C7 (amended): `load_players_data` returns the season count computed as
the statistical mode of the per-row `number_of_seasons` values, and a tie
among most-frequent values is broken by taking the smallest tied value
(pandas returns the modes in ascending sorted order and `iat[0]` takes the
first), not the first mode in positional row order. -/
theorem load_players_data_mode_least (rows : List (String × Int))
    (h : rows ≠ []) :
    ∃ m, (load_players_data rows).2 = some m ∧
      m ∈ rows.map Prod.snd ∧
      (∀ y ∈ rows.map Prod.snd,
        (rows.map Prod.snd).count y ≤ (rows.map Prod.snd).count m) ∧
      (∀ y ∈ rows.map Prod.snd,
        (∀ z ∈ rows.map Prod.snd,
          (rows.map Prod.snd).count z ≤ (rows.map Prod.snd).count y) →
        m ≤ y) := by
  have hlne : rows.map Prod.snd ≠ [] := by
    intro hc
    exact h (List.map_eq_nil_iff.mp hc)
  obtain ⟨m, h1, h2, h3, h4⟩ := mode_iat0_least (rows.map Prod.snd) hlne
  exact ⟨m, h1, h2, h3, h4⟩

/-- Witness for C7's amended theorem at the tied rows. -/
theorem load_players_data_mode_least_witness :
    ∃ m, (load_players_data [("A", 5), ("B", 3), ("C", 3), ("D", 5)]).2 =
        some m ∧
      m ∈ ([("A", 5), ("B", 3), ("C", 3), ("D", 5)] :
          List (String × Int)).map Prod.snd ∧
      (∀ y ∈ ([("A", 5), ("B", 3), ("C", 3), ("D", 5)] :
          List (String × Int)).map Prod.snd,
        (([("A", 5), ("B", 3), ("C", 3), ("D", 5)] :
          List (String × Int)).map Prod.snd).count y ≤
        (([("A", 5), ("B", 3), ("C", 3), ("D", 5)] :
          List (String × Int)).map Prod.snd).count m) ∧
      (∀ y ∈ ([("A", 5), ("B", 3), ("C", 3), ("D", 5)] :
          List (String × Int)).map Prod.snd,
        (∀ z ∈ ([("A", 5), ("B", 3), ("C", 3), ("D", 5)] :
            List (String × Int)).map Prod.snd,
          (([("A", 5), ("B", 3), ("C", 3), ("D", 5)] :
            List (String × Int)).map Prod.snd).count z ≤
          (([("A", 5), ("B", 3), ("C", 3), ("D", 5)] :
            List (String × Int)).map Prod.snd).count y) →
        m ≤ y) :=
  load_players_data_mode_least [("A", 5), ("B", 3), ("C", 3), ("D", 5)]
    (by decide)

/-! ## The earlier variant `src/unnamed/part_000`

Its four data loaders call
`connect_to_sql_alchemy_server(server_type="prod")` (lines 48, 73, 103 and
136) although the function's signature (line 13) declares no parameters, so
each call raises `TypeError` before any query is issued.  The query results
are abstracted as inputs; they are never reached. -/

inductive PyError where
  | typeError : PyError
deriving DecidableEq

/-- The parameter names accepted by `connect_to_sql_alchemy_server` in
`src/unnamed/part_000` (line 13): none. -/
def connect_server_params : List String := []

/-- Python keyword-call semantics: a call raises `TypeError` when a keyword
argument is not among the callee's declared parameter names. -/
def call_with_kwargs (params kwargs : List String) : Except PyError Unit :=
  if kwargs.all (fun kw => params.contains kw) then Except.ok ()
  else Except.error PyError.typeError

/-- The call `connect_to_sql_alchemy_server(server_type="prod")` that every
loader in the variant makes. -/
def connect_call_v0 : Except PyError Unit :=
  call_with_kwargs connect_server_params ["server_type"]

/-- `load_latest_game_date` of `src/unnamed/part_000` (lines 43-61); the
`MAX(game_date)` query result is the input `latest`. -/
def load_latest_game_date_v0 (latest : Int) : Except PyError Int :=
  connect_call_v0.bind fun _ => Except.ok latest

/-- `load_players` of `src/unnamed/part_000` (lines 66-90); the query's
player column for the given threshold is the input `rows`. -/
def load_players_v0 (minimum_seasons : Int) (rows : List String) :
    Except PyError (List String) :=
  connect_call_v0.bind fun _ => Except.ok (List.insertionSort (· ≤ ·) rows)

/-- `load_players_data` of `src/unnamed/part_000` (lines 95-124). -/
def load_players_data_v0 (player_name : String)
    (rows : List (String × Int)) :
    Except PyError (List String × Option Int) :=
  connect_call_v0.bind fun _ =>
    Except.ok (List.insertionSort (· ≤ ·) (rows.map Prod.fst),
      mode_iat0 (rows.map Prod.snd))

/-- `load_unique_teams` of `src/unnamed/part_000` (lines 130-151). -/
def load_unique_teams_v0 (rows : List String) :
    Except PyError (List String) :=
  connect_call_v0.bind fun _ => Except.ok (List.insertionSort (· ≤ ·) rows)

/-- C10: in the variant source the connect call rejects the keyword
`server_type`, so every data loader raises `TypeError` for every input and
none of them can ever return a result. -/
theorem variant_loaders_always_type_error :
    connect_call_v0 = Except.error PyError.typeError ∧
    (∀ latest : Int,
      load_latest_game_date_v0 latest = Except.error PyError.typeError) ∧
    (∀ (ms : Int) (rows : List String),
      load_players_v0 ms rows = Except.error PyError.typeError) ∧
    (∀ (name : String) (rows : List (String × Int)),
      load_players_data_v0 name rows = Except.error PyError.typeError) ∧
    (∀ rows : List String,
      load_unique_teams_v0 rows = Except.error PyError.typeError) :=
  ⟨rfl, fun _ => rfl, fun _ _ => rfl, fun _ _ => rfl, fun _ => rfl⟩

end Whod
